import Mathlib

/-!
Shallow embedding of the Orion Sentinel HA DNS repository core:

* src/scripts/apply-profile.py — the profile reconciliation pipeline
  (ProfileApplicator and main);
* src/health/dns-health-service.py — the health/readiness HTTP handlers.

External effects (subprocess execution, the Pi-hole HTTP API) are modelled
as explicit oracles threaded through the definitions; machine behaviour of
the source is translated statement by statement.
-/

/-- Boolean test that the first character list occurs at the head of the second
(used to embed the Python substring operator). -/
def leadMatch : List Char → List Char → Bool
  | [], _ => true
  | _ :: _, [] => false
  | a :: as, b :: bs => a == b && leadMatch as bs

/-- Boolean occurrence test: the first character list occurs contiguously
somewhere inside the second. -/
def subMatch (n : List Char) : List Char → Bool
  | [] => n.isEmpty
  | c :: t => leadMatch n (c :: t) || subMatch n t

/-- Embedding of the Python expression `needle in hay` on strings. -/
def strContains (hay needle : String) : Bool :=
  subMatch needle.data hay.data

theorem leadMatch_iff (n h : List Char) : leadMatch n h = true ↔ ∃ t, h = n ++ t := by
  induction n generalizing h with
  | nil =>
    simp [leadMatch]
  | cons a as ih =>
    cases h with
    | nil => simp [leadMatch]
    | cons b bs =>
      simp only [leadMatch, Bool.and_eq_true, beq_iff_eq, ih, List.cons_append,
        List.cons.injEq]
      constructor
      · rintro ⟨rfl, t, rfl⟩
        exact ⟨t, rfl, rfl⟩
      · rintro ⟨t, rfl, rfl⟩
        exact ⟨rfl, t, rfl⟩

theorem subMatch_iff (n h : List Char) : subMatch n h = true ↔ ∃ p t, h = p ++ n ++ t := by
  induction h with
  | nil =>
    simp [subMatch, List.isEmpty_iff, eq_comm (a := ([] : List Char)), List.append_eq_nil]
  | cons c t ih =>
    simp only [subMatch, Bool.or_eq_true, leadMatch_iff, ih]
    constructor
    · rintro (⟨s, hs⟩ | ⟨p, s, hs⟩)
      · exact ⟨[], s, by simpa using hs⟩
      · exact ⟨c :: p, s, by simp [hs]⟩
    · rintro ⟨p, s, hs⟩
      cases p with
      | nil => exact Or.inl ⟨s, by simpa using hs⟩
      | cons q qs =>
        right
        simp only [List.cons_append, List.cons.injEq] at hs
        exact ⟨qs, s, hs.2⟩

theorem stringDataInj {a b : String} (h : a.data = b.data) : a = b :=
  String.ext h

theorem strContains_iff (hay needle : String) :
    strContains hay needle = true ↔ ∃ p t : String, hay = p ++ needle ++ t := by
  unfold strContains
  rw [subMatch_iff]
  constructor
  · rintro ⟨p, t, hd⟩
    refine ⟨⟨p⟩, ⟨t⟩, stringDataInj ?_⟩
    simpa [String.data] using hd
  · rintro ⟨p, t, rfl⟩
    exact ⟨p.data, t.data, rfl⟩

/-! Data model of a loaded profile document (the dictionaries produced by
parsing the profile YAML, with the defaults the source supplies through
dict.get already applied). -/

/-- One element of the profile key `blocklists` (apply-profile.py lines 91-102):
the source reads `enabled` (default True), `name` (default unnamed) and
`url` (default empty string, an entry with an empty url is skipped). -/
structure BlocklistEntry where
  name : String
  url : String
  enabled : Bool
deriving DecidableEq

/-- One element of the profile key `whitelist` (lines 154-157): a category
with a list of domains, each applied independently. -/
structure WhitelistCategory where
  name : String
  reason : String
  domains : List String
deriving DecidableEq

/-- One element of the profile key `regex_patterns` (lines 203-213). -/
structure RegexRule where
  description : String
  pattern : String
  enabled : Bool
deriving DecidableEq

/-- A parsed profile document. Each section is optional because the source
tests `key not in self.profile` before iterating (lines 84, 146, 196). -/
structure ProfileDoc where
  name : String
  blocklists : Option (List BlocklistEntry)
  whitelist : Option (List WhitelistCategory)
  regexPatterns : Option (List RegexRule)
deriving DecidableEq

/-- An argv vector passed to subprocess.run. -/
abbrev Cmd := List String

/-- Result of one subprocess.run call: normal completion with exit code and
captured stdout/stderr, a raised TimeoutExpired, or any other raised
exception. -/
inductive ExecResult where
  | completed (returncode : Int) (stdout : String) (stderr : String)
  | timedOut
  | raised (msg : String)
deriving DecidableEq

/-- The argv built at apply-profile.py line 126. -/
def blocklistCmd (url : String) : Cmd :=
  ["docker", "exec", "pihole_primary", "pihole", "-a", "-b", url]

/-- The argv built at line 180. -/
def whitelistCmd (domain : String) : Cmd :=
  ["docker", "exec", "pihole_primary", "pihole", "-w", domain]

/-- The argv built at line 231. -/
def regexCmd (pattern : String) : Cmd :=
  ["docker", "exec", "pihole_primary", "pihole", "regex", pattern]

/-- The argv built at line 254. -/
def gravityCmd : Cmd :=
  ["docker", "exec", "pihole_primary", "pihole", "-g"]

/-- Embedding of the Python string method lower(): lowercase every
character. -/
def lowerStr (s : String) : String :=
  ⟨s.data.map Char.toLower⟩

/-- The Bool computed by `_add_blocklist_to_pihole` (lines 119-142) from the
subprocess result: exit code 0, or the case-insensitive marker
`already exists` in stdout; every raised exception is caught and yields
False. -/
def addBlocklistResult : ExecResult → Bool
  | .completed rc out _ => rc == 0 || strContains (lowerStr out) "already exists"
  | .timedOut => false
  | .raised _ => false

/-- The Bool computed by `_add_whitelist_to_pihole` (lines 176-192): exit
code 0 or the case-insensitive marker `already` in stdout. -/
def addWhitelistResult : ExecResult → Bool
  | .completed rc out _ => rc == 0 || strContains (lowerStr out) "already"
  | .timedOut => false
  | .raised _ => false

/-- The Bool computed by `_add_regex_to_pihole` (lines 227-243): exit code 0
or the case-insensitive marker `already` in stdout. -/
def addRegexResult : ExecResult → Bool
  | .completed rc out _ => rc == 0 || strContains (lowerStr out) "already"
  | .timedOut => false
  | .raised _ => false

/-- The Bool computed by `update_gravity` in live mode (lines 253-274): exit
code 0 only; a timeout or any other exception yields False. -/
def gravityResult : ExecResult → Bool
  | .completed rc _ _ => rc == 0
  | .timedOut => false
  | .raised _ => false

/-- Per-operation outcome. Modelled from the spec: the source returns only a
success Bool per item; spec section 3 (OperationOutcome) splits success into
Added versus AlreadyPresent by the already-marker, keeps Failed for the rest,
and spec section 4.1 tags dry-run results as simulated. -/
inductive Outcome where
  | added
  | alreadyPresent
  | skipped
  | failed
  | simulatedAdd
deriving DecidableEq

/-- Modelled from the spec: classify one executed mutation into the
OperationOutcome of spec section 3, using exactly the already-marker test and
the exit-code test of the source helpers. -/
def classifyOutcome (marker : String) : ExecResult → Outcome
  | .completed rc out _ =>
    if strContains (lowerStr out) marker then .alreadyPresent
    else if rc == 0 then .added
    else .failed
  | .timedOut => .failed
  | .raised _ => .failed

/-- Observable gateway event of a run: a subprocess actually executed, or a
dry-run report line for the call that would have been executed. -/
inductive Event where
  | execCall (c : Cmd)
  | simulatedCall (c : Cmd)
deriving DecidableEq

/-- The event a stage emits for one prospective call, by mode. -/
def mkEvent (dryRun : Bool) (c : Cmd) : Event :=
  if dryRun then .simulatedCall c else .execCall c

/-- Output of iterating the items of one stage: per-item outcomes in input
order, the gateway events in order, and the final external state. -/
structure ItemsOut (σ : Type) where
  outcomes : List Outcome
  events : List Event
  st : σ
deriving DecidableEq

/-- Output of one stage method: its Python return value plus the items
output. -/
structure StageOut (σ : Type) where
  ret : Bool
  outcomes : List Outcome
  events : List Event
  st : σ
deriving DecidableEq

/-- An entry is attempted iff it is enabled and has a nonempty url
(lines 92-102: disabled entries and entries without url are skipped by
`continue`). -/
def blAttempted (b : BlocklistEntry) : Bool :=
  b.enabled && !(b.url == "")

/-- A regex rule is attempted iff it is enabled and has a nonempty pattern
(lines 204-213). -/
def rgAttempted (r : RegexRule) : Bool :=
  r.enabled && !(r.pattern == "")

/-- Body of the blocklist loop for one entry (lines 91-115): skip when
disabled or url missing; in dry-run report the prospective call; otherwise
execute `_add_blocklist_to_pihole`. -/
def applyBlocklistEntry {σ : Type} (ex : Cmd → σ → ExecResult × σ) (dryRun : Bool)
    (b : BlocklistEntry) (s : σ) : Outcome × List Event × σ :=
  if !b.enabled then (.skipped, [], s)
  else if b.url == "" then (.skipped, [], s)
  else if dryRun then (.simulatedAdd, [.simulatedCall (blocklistCmd b.url)], s)
  else
    let r := ex (blocklistCmd b.url) s
    (classifyOutcome "already exists" r.1, [.execCall (blocklistCmd b.url)], r.2)

/-- The blocklist loop over all entries (lines 91-116). -/
def blGo {σ : Type} (ex : Cmd → σ → ExecResult × σ) (dryRun : Bool) :
    List BlocklistEntry → σ → ItemsOut σ
  | [], s => ⟨[], [], s⟩
  | b :: bs, s =>
    let one := applyBlocklistEntry ex dryRun b s
    let rest := blGo ex dryRun bs one.2.2
    ⟨one.1 :: rest.outcomes, one.2.1 ++ rest.events, rest.st⟩

/-- `apply_blocklists` (lines 82-117): absent section is valid; the method
returns True in every case. -/
def applyBlocklists {σ : Type} (ex : Cmd → σ → ExecResult × σ) (dryRun : Bool)
    (obl : Option (List BlocklistEntry)) (s : σ) : StageOut σ :=
  match obl with
  | none => ⟨true, [], [], s⟩
  | some bs =>
    let r := blGo ex dryRun bs s
    ⟨true, r.outcomes, r.events, r.st⟩

/-- One whitelist domain (lines 161-171): in dry-run the domain is printed as
a prospective call; otherwise `_add_whitelist_to_pihole` runs. -/
def applyWhitelistDomain {σ : Type} (ex : Cmd → σ → ExecResult × σ) (dryRun : Bool)
    (domain : String) (s : σ) : Outcome × List Event × σ :=
  if dryRun then (.simulatedAdd, [.simulatedCall (whitelistCmd domain)], s)
  else
    let r := ex (whitelistCmd domain) s
    (classifyOutcome "already" r.1, [.execCall (whitelistCmd domain)], r.2)

/-- The loop over the domains of one whitelist category (lines 163-171). -/
def wlDomainsGo {σ : Type} (ex : Cmd → σ → ExecResult × σ) (dryRun : Bool) :
    List String → σ → ItemsOut σ
  | [], s => ⟨[], [], s⟩
  | d :: ds, s =>
    let one := applyWhitelistDomain ex dryRun d s
    let rest := wlDomainsGo ex dryRun ds one.2.2
    ⟨one.1 :: rest.outcomes, one.2.1 ++ rest.events, rest.st⟩

/-- The loop over whitelist categories (lines 154-171). -/
def wlCatsGo {σ : Type} (ex : Cmd → σ → ExecResult × σ) (dryRun : Bool) :
    List WhitelistCategory → σ → ItemsOut σ
  | [], s => ⟨[], [], s⟩
  | c :: cs, s =>
    let one := wlDomainsGo ex dryRun c.domains s
    let rest := wlCatsGo ex dryRun cs one.st
    ⟨one.outcomes ++ rest.outcomes, one.events ++ rest.events, rest.st⟩

/-- `apply_whitelist` (lines 144-174): absent section is valid; the method
returns True in every case. -/
def applyWhitelist {σ : Type} (ex : Cmd → σ → ExecResult × σ) (dryRun : Bool)
    (owl : Option (List WhitelistCategory)) (s : σ) : StageOut σ :=
  match owl with
  | none => ⟨true, [], [], s⟩
  | some cs =>
    let r := wlCatsGo ex dryRun cs s
    ⟨true, r.outcomes, r.events, r.st⟩

/-- Body of the regex loop for one rule (lines 203-223). -/
def applyRegexEntry {σ : Type} (ex : Cmd → σ → ExecResult × σ) (dryRun : Bool)
    (r : RegexRule) (s : σ) : Outcome × List Event × σ :=
  if !r.enabled then (.skipped, [], s)
  else if r.pattern == "" then (.skipped, [], s)
  else if dryRun then (.simulatedAdd, [.simulatedCall (regexCmd r.pattern)], s)
  else
    let e := ex (regexCmd r.pattern) s
    (classifyOutcome "already" e.1, [.execCall (regexCmd r.pattern)], e.2)

/-- The regex loop over all rules (lines 203-224). -/
def rgGo {σ : Type} (ex : Cmd → σ → ExecResult × σ) (dryRun : Bool) :
    List RegexRule → σ → ItemsOut σ
  | [], s => ⟨[], [], s⟩
  | r :: rs, s =>
    let one := applyRegexEntry ex dryRun r s
    let rest := rgGo ex dryRun rs one.2.2
    ⟨one.1 :: rest.outcomes, one.2.1 ++ rest.events, rest.st⟩

/-- `apply_regex_patterns` (lines 194-225): absent section is valid; the
method returns True in every case. -/
def applyRegexPatterns {σ : Type} (ex : Cmd → σ → ExecResult × σ) (dryRun : Bool)
    (org : Option (List RegexRule)) (s : σ) : StageOut σ :=
  match org with
  | none => ⟨true, [], [], s⟩
  | some rs =>
    let r := rgGo ex dryRun rs s
    ⟨true, r.outcomes, r.events, r.st⟩

/-- `update_gravity` (lines 245-274): in dry-run only a report line, no call;
otherwise one long-timeout subprocess whose exit code decides the Bool. -/
def updateGravity {σ : Type} (ex : Cmd → σ → ExecResult × σ) (dryRun : Bool)
    (s : σ) : StageOut σ :=
  if dryRun then ⟨true, [], [.simulatedCall gravityCmd], s⟩
  else
    let r := ex gravityCmd s
    ⟨gravityResult r.1, [], [.execCall gravityCmd], r.2⟩

/-- Outcome of `load_profile` (lines 44-66): a parsed document, or one of the
two caught exceptions, each of which calls sys.exit(1). -/
inductive LoadResult where
  | ok (d : ProfileDoc)
  | fileNotFound
  | yamlError
deriving DecidableEq

/-- The exception classes that can cross `apply_profile` uncaught. -/
inductive PyExc where
  | attributeError
deriving DecidableEq

/-- How one call of `apply_profile` terminates: a normal Python return value,
a SystemExit raised by sys.exit inside `load_profile`, or an uncaught
exception. -/
inductive RunResult where
  | returns (b : Bool)
  | exitWith (code : Nat)
  | raises (e : PyExc)
deriving DecidableEq

/-- The environment facts one invocation runs against: the dry-run flag, what
opening and parsing the profile file yields, and whether the Pi-hole API
probe of `verify_pihole_api` (lines 68-80) reports reachable. -/
structure World where
  dryRun : Bool
  loadResult : LoadResult
  verifyOk : Bool
deriving DecidableEq

/-- Full output of one `apply_profile` call: its termination, the per-item
outcomes of the three item stages in order, the gateway events in order, and
the final external state. -/
structure RunOut (σ : Type) where
  result : RunResult
  outcomes : List Outcome
  events : List Event
  st : σ
deriving DecidableEq

/-- `ProfileApplicator.apply_profile` (lines 276-310). The banner at line 279
reads `self.profile.get(...)`; `initProfile` is the value of the attribute
`self.profile` on entry (None straight after `__init__`, line 38), and a None
there raises AttributeError before anything else happens. Afterwards:
`load_profile`, then in live mode the connectivity check (early False return),
then the three item stages, then `update_gravity` whose Bool the source
discards, then an unconditional `return True`. -/
def applyProfile {σ : Type} (ex : Cmd → σ → ExecResult × σ)
    (initProfile : Option ProfileDoc) (w : World) (s : σ) : RunOut σ :=
  match initProfile with
  | none => ⟨.raises .attributeError, [], [], s⟩
  | some _ =>
    match w.loadResult with
    | .fileNotFound => ⟨.exitWith 1, [], [], s⟩
    | .yamlError => ⟨.exitWith 1, [], [], s⟩
    | .ok d =>
      if !w.dryRun && !w.verifyOk then ⟨.returns false, [], [], s⟩
      else
        let b := applyBlocklists ex w.dryRun d.blocklists s
        let wl := applyWhitelist ex w.dryRun d.whitelist b.st
        let rg := applyRegexPatterns ex w.dryRun d.regexPatterns wl.st
        let g := updateGravity ex w.dryRun rg.st
        ⟨.returns true, b.outcomes ++ wl.outcomes ++ rg.outcomes,
          b.events ++ wl.events ++ rg.events ++ g.events, g.st⟩

/-- Process exit status produced by `main` (lines 362-363) from how
`apply_profile` terminates: `sys.exit(0 if success else 1)`; a SystemExit
propagates its code; an uncaught exception makes the interpreter exit 1. -/
def processExit : RunResult → Nat
  | .returns true => 0
  | .returns false => 1
  | .exitWith n => n
  | .raises _ => 1

/-- `main` (lines 313-363) after the profile-path existence check (a missing
path exits 1 at line 352 before the applicator exists): it constructs
`ProfileApplicator`, whose `__init__` leaves `self.profile = None`, and calls
`apply_profile` on it directly. -/
def mainRun {σ : Type} (ex : Cmd → σ → ExecResult × σ) (w : World) (s : σ) :
    RunOut σ :=
  applyProfile ex none w s

/-! Embedding of the health HTTP service handlers
(src/health/dns-health-service.py). The HealthChecker result dictionary is
abstracted by its status string and its checks mapping from check name to
the status field of that check (absent key or absent status field is None). -/

/-- A minimal HTTP response: the status code and the headers that
`send_json_response` (lines 101-109) sets. -/
structure HttpResponse where
  statusCode : Nat
  headers : List (String × String)
deriving DecidableEq

/-- `send_json_response` (lines 101-109): the given code plus the two fixed
headers. -/
def sendJsonResponse (code : Nat) : HttpResponse :=
  ⟨code, [("Content-Type", "application/json"), ("Cache-Control", "no-cache")]⟩

/-- `handle_health_simple` (lines 43-56): 200 iff the aggregate status string
equals healthy, else 503. -/
def handleHealthSimple (status : String) : HttpResponse :=
  sendJsonResponse (if status == "healthy" then 200 else 503)

/-- `handle_health_detailed` (lines 58-65): 200 iff the aggregate status
string is in the list [healthy, degraded], else 503. -/
def handleHealthDetailed (status : String) : HttpResponse :=
  sendJsonResponse (if ["healthy", "degraded"].contains status then 200 else 503)

/-- The readiness verdict of `handle_readiness` (lines 72-82): at least one
pihole role check passed and at least one unbound role check passed, where
`checks` maps a check name to the status string of that check result. -/
def readinessReady (checks : String → Option String) : Bool :=
  let piholeOk := ["primary", "secondary"].any fun role =>
    checks ("pihole_" ++ role) == some "pass"
  let unboundOk := ["primary", "secondary"].any fun role =>
    checks ("unbound_" ++ role) == some "pass"
  piholeOk && unboundOk

/-- `handle_readiness` (lines 67-90): 200 iff the verdict is true, else
503. -/
def handleReadiness (checks : String → Option String) : HttpResponse :=
  sendJsonResponse (if readinessReady checks then 200 else 503)

/-- The three aggregate status values of the spec (section 3,
AggregateHealth). -/
inductive AggStatus where
  | healthy
  | degraded
  | unhealthy
deriving DecidableEq

/-- The status string the checker reports for each aggregate status value. -/
def statusStr : AggStatus → String
  | .healthy => "healthy"
  | .degraded => "degraded"
  | .unhealthy => "unhealthy"

/-- The items of an optional profile section: an absent key contributes zero
items. -/
def optItems {α : Type} : Option (List α) → List α
  | none => []
  | some l => l

/-- Whether `load_profile` succeeds. -/
def loadOkB : LoadResult → Bool
  | .ok _ => true
  | .fileNotFound => false
  | .yamlError => false

theorem applyBlocklists_eq {σ : Type} (ex : Cmd → σ → ExecResult × σ) (dryRun : Bool)
    (obl : Option (List BlocklistEntry)) (s : σ) :
    applyBlocklists ex dryRun obl s =
      ⟨true, (blGo ex dryRun (optItems obl) s).outcomes,
        (blGo ex dryRun (optItems obl) s).events, (blGo ex dryRun (optItems obl) s).st⟩ := by
  cases obl <;> rfl

theorem applyWhitelist_eq {σ : Type} (ex : Cmd → σ → ExecResult × σ) (dryRun : Bool)
    (owl : Option (List WhitelistCategory)) (s : σ) :
    applyWhitelist ex dryRun owl s =
      ⟨true, (wlCatsGo ex dryRun (optItems owl) s).outcomes,
        (wlCatsGo ex dryRun (optItems owl) s).events, (wlCatsGo ex dryRun (optItems owl) s).st⟩ := by
  cases owl <;> rfl

theorem applyRegexPatterns_eq {σ : Type} (ex : Cmd → σ → ExecResult × σ) (dryRun : Bool)
    (org : Option (List RegexRule)) (s : σ) :
    applyRegexPatterns ex dryRun org s =
      ⟨true, (rgGo ex dryRun (optItems org) s).outcomes,
        (rgGo ex dryRun (optItems org) s).events, (rgGo ex dryRun (optItems org) s).st⟩ := by
  cases org <;> rfl

theorem processExit_char {σ : Type} (ex : Cmd → σ → ExecResult × σ)
    (init : Option ProfileDoc) (w : World) (s : σ) :
    processExit (applyProfile ex init w s).result =
      if init.isSome && loadOkB w.loadResult && (w.dryRun || w.verifyOk) then 0 else 1 := by
  cases init with
  | none => simp [applyProfile, processExit]
  | some p =>
    cases hl : w.loadResult <;> cases hd : w.dryRun <;> cases hv : w.verifyOk <;>
      simp [applyProfile, processExit, loadOkB, hl, hd, hv]

/-- Claim C2 (code_bug evidence): through `main`, every invocation of
`apply_profile` terminates with an uncaught AttributeError, whatever the
profile file, the dry-run flag and the outcomes of all external calls,
because line 279 reads `self.profile.get(...)` while `self.profile` is still
None; no boolean outcome or deliberate exit is produced. -/
theorem c2_main_always_raises : ∀ (σ : Type) (ex : Cmd → σ → ExecResult × σ)
    (w : World) (s : σ), (mainRun ex w s).result = .raises .attributeError := by
  intro σ ex w s
  rfl

/-- A one-blocklist profile used as concrete input for the rebuild-failure
scenario. -/
def c1Doc : ProfileDoc :=
  ⟨"standard", some [⟨"ads", "http://x/list", true⟩], some [], some []⟩

/-- An execution oracle under which every mutation succeeds but the gravity
rebuild exits with status 1. -/
def c1Oracle : Cmd → Unit → ExecResult × Unit := fun c _ =>
  if c == gravityCmd then (.completed 1 "" "gravity failed", ())
  else (.completed 0 "" "", ())

/-- Claim C1 (counterexample): a live run with the target reachable in which
the RebuildIndex stage (`update_gravity`) is executed and fails, yet
`apply_profile` returns True and the process exit status is 0 — the claim
that such a run exits with a non-zero status is false on the code, which
discards the Bool of `update_gravity` at line 299. -/
theorem c1_counterexample :
    (applyProfile c1Oracle (some c1Doc) ⟨false, .ok c1Doc, true⟩ ()).result =
      .returns true ∧
    processExit (applyProfile c1Oracle (some c1Doc) ⟨false, .ok c1Doc, true⟩ ()).result = 0 ∧
    Event.execCall gravityCmd ∈
      (applyProfile c1Oracle (some c1Doc) ⟨false, .ok c1Doc, true⟩ ()).events ∧
    gravityResult (c1Oracle gravityCmd ()).1 = false := by
  decide

/-- Claim C1 (amended): the process exit status never depends on the
RebuildIndex outcome (nor on any per-item outcome): it is 0 exactly when the
initial profile attribute is set, the profile loads, and the run is dry-run
or connectivity verification succeeds; the rebuild result is discarded. -/
theorem c1_amended_exit_status : ∀ (σ : Type) (ex : Cmd → σ → ExecResult × σ)
    (init : Option ProfileDoc) (w : World) (s : σ),
    processExit (applyProfile ex init w s).result = 0 ↔
      (init.isSome = true ∧ loadOkB w.loadResult = true ∧
        (w.dryRun = true ∨ w.verifyOk = true)) := by
  intro σ ex init w s
  rw [processExit_char]
  cases hs : init.isSome <;> cases hl : loadOkB w.loadResult <;>
    cases hd : w.dryRun <;> cases hv : w.verifyOk <;> simp [hs, hl, hd, hv]

/-- Claim C10: each of the three item-stage methods returns True for every
input and every oracle outcome, and consequently the process exit status is
a function of the mode, load outcome and connectivity alone — two runs that
agree on those agree on the exit status whatever every external call
returns. -/
theorem c10_stage_returns_always_true :
    (∀ (σ : Type) (ex : Cmd → σ → ExecResult × σ) (dryRun : Bool)
      (obl : Option (List BlocklistEntry)) (owl : Option (List WhitelistCategory))
      (org : Option (List RegexRule)) (s : σ),
      (applyBlocklists ex dryRun obl s).ret = true ∧
      (applyWhitelist ex dryRun owl s).ret = true ∧
      (applyRegexPatterns ex dryRun org s).ret = true) ∧
    (∀ (σ τ : Type) (ex : Cmd → σ → ExecResult × σ) (ex2 : Cmd → τ → ExecResult × τ)
      (init : Option ProfileDoc) (w : World) (s : σ) (t : τ),
      processExit (applyProfile ex init w s).result =
        processExit (applyProfile ex2 init w t).result) := by
  constructor
  · intro σ ex dryRun obl owl org s
    refine ⟨?_, ?_, ?_⟩ <;>
      simp [applyBlocklists_eq, applyWhitelist_eq, applyRegexPatterns_eq]
  · intro σ τ ex ex2 init w s t
    rw [processExit_char, processExit_char]

theorem strAppPP : "pihole_" ++ "primary" = "pihole_primary" := rfl

theorem strAppPS : "pihole_" ++ "secondary" = "pihole_secondary" := rfl

theorem strAppUP : "unbound_" ++ "primary" = "unbound_primary" := rfl

theorem strAppUS : "unbound_" ++ "secondary" = "unbound_secondary" := rfl

/-- The check set of the spec scenario: filter group [pass, fail], resolver
group [fail, fail]. -/
def exampleChecks43 : String → Option String := fun k =>
  if k == "pihole_primary" then some "pass"
  else if k == "pihole_secondary" then some "fail"
  else if k == "unbound_primary" then some "fail"
  else if k == "unbound_secondary" then some "fail"
  else none

/-- Claim C3: the readiness verdict is true iff at least one pihole role
check passed and at least one unbound role check passed, the /ready endpoint
answers 200 exactly then and 503 otherwise, and on the concrete scenario
with filter [pass, fail] and resolver [fail, fail] the verdict is false and
the endpoint answers 503. -/
theorem c3_readiness_quorum :
    (∀ checks : String → Option String,
      ((handleReadiness checks).statusCode = 200 ↔
        ((checks "pihole_primary" = some "pass" ∨
            checks "pihole_secondary" = some "pass") ∧
          (checks "unbound_primary" = some "pass" ∨
            checks "unbound_secondary" = some "pass"))) ∧
      ((handleReadiness checks).statusCode = 200 ∨
        (handleReadiness checks).statusCode = 503)) ∧
    readinessReady exampleChecks43 = false ∧
    (handleReadiness exampleChecks43).statusCode = 503 := by
  refine ⟨fun checks => ⟨?_, ?_⟩, by decide, by decide⟩
  · have hr : readinessReady checks = true ↔
        ((checks "pihole_primary" = some "pass" ∨
            checks "pihole_secondary" = some "pass") ∧
          (checks "unbound_primary" = some "pass" ∨
            checks "unbound_secondary" = some "pass")) := by
      simp [readinessReady, strAppPP, strAppPS, strAppUP, strAppUS]
    rw [show (handleReadiness checks).statusCode =
        (if readinessReady checks then 200 else 503) from rfl, ← hr]
    by_cases h : readinessReady checks = true <;> simp [h]
  · rw [show (handleReadiness checks).statusCode =
        (if readinessReady checks then 200 else 503) from rfl]
    by_cases h : readinessReady checks = true <;> simp [h]

/-- Claim C9: for each of the three aggregate status values, /health answers
200 iff Healthy and 503 otherwise (Degraded included), /health/detailed
answers 200 iff Healthy or Degraded and 503 iff Unhealthy, and both
endpoints carry the application/json and no-cache headers. -/
theorem c9_status_mapping : ∀ st : AggStatus,
    ((handleHealthSimple (statusStr st)).statusCode = 200 ↔ st = .healthy) ∧
    ((handleHealthSimple (statusStr st)).statusCode = 503 ↔
      (st = .degraded ∨ st = .unhealthy)) ∧
    ((handleHealthDetailed (statusStr st)).statusCode = 200 ↔
      (st = .healthy ∨ st = .degraded)) ∧
    ((handleHealthDetailed (statusStr st)).statusCode = 503 ↔ st = .unhealthy) ∧
    (handleHealthSimple (statusStr st)).headers =
      [("Content-Type", "application/json"), ("Cache-Control", "no-cache")] ∧
    (handleHealthDetailed (statusStr st)).headers =
      [("Content-Type", "application/json"), ("Cache-Control", "no-cache")] := by
  intro st
  cases st <;> decide

/-- Claim C4: for each of the three mutating helpers, the computed success
Bool is true iff the exit code is 0 or the stdout, lowercased, contains the
known already-marker of that helper as a contiguous substring; a raised
timeout or any other exception is never a success; and a completed call
whose lowercased stdout contains the marker is classified AlreadyPresent
whatever the exit code. -/
theorem c4_already_marker : ∀ (rc : Int) (out err : String),
    (addBlocklistResult (.completed rc out err) = true ↔
      (rc = 0 ∨ ∃ p t : String, lowerStr out = p ++ "already exists" ++ t)) ∧
    (addWhitelistResult (.completed rc out err) = true ↔
      (rc = 0 ∨ ∃ p t : String, lowerStr out = p ++ "already" ++ t)) ∧
    (addRegexResult (.completed rc out err) = true ↔
      (rc = 0 ∨ ∃ p t : String, lowerStr out = p ++ "already" ++ t)) ∧
    (classifyOutcome "already exists" (.completed rc out err) = .alreadyPresent ↔
      (∃ p t : String, lowerStr out = p ++ "already exists" ++ t)) ∧
    addBlocklistResult .timedOut = false ∧
    addBlocklistResult (.raised err) = false ∧
    addWhitelistResult .timedOut = false ∧
    addWhitelistResult (.raised err) = false ∧
    addRegexResult .timedOut = false ∧
    addRegexResult (.raised err) = false := by
  intro rc out err
  refine ⟨?_, ?_, ?_, ?_, rfl, rfl, rfl, rfl, rfl, rfl⟩
  · simp [addBlocklistResult, ← strContains_iff]
  · simp [addWhitelistResult, ← strContains_iff]
  · simp [addRegexResult, ← strContains_iff]
  · rw [← strContains_iff]
    by_cases h : strContains (lowerStr out) "already exists" = true <;>
      by_cases hrc : rc == 0 <;> simp [classifyOutcome, h, hrc]

/-- All whitelist domains of a profile in declaration order (categories in
order, domains in order inside each category). -/
def allDomains : List WhitelistCategory → List String
  | [] => []
  | c :: cs => c.domains ++ allDomains cs

theorem blGo_events {σ : Type} (ex : Cmd → σ → ExecResult × σ) (dry : Bool)
    (bs : List BlocklistEntry) (s : σ) :
    (blGo ex dry bs s).events =
      (bs.filter blAttempted).map (fun b => mkEvent dry (blocklistCmd b.url)) := by
  induction bs generalizing s with
  | nil => simp [blGo]
  | cons b bs ih =>
    cases he : b.enabled <;> cases hu : b.url == "" <;> cases dry <;>
      simp [blGo, applyBlocklistEntry, blAttempted, he, hu, mkEvent, ih, List.filter_cons]

theorem wlDomainsGo_events {σ : Type} (ex : Cmd → σ → ExecResult × σ) (dry : Bool)
    (ds : List String) (s : σ) :
    (wlDomainsGo ex dry ds s).events = ds.map (fun d => mkEvent dry (whitelistCmd d)) := by
  induction ds generalizing s with
  | nil => simp [wlDomainsGo]
  | cons d ds ih =>
    cases dry <;> simp [wlDomainsGo, applyWhitelistDomain, mkEvent, ih]

theorem wlCatsGo_events {σ : Type} (ex : Cmd → σ → ExecResult × σ) (dry : Bool)
    (cs : List WhitelistCategory) (s : σ) :
    (wlCatsGo ex dry cs s).events =
      (allDomains cs).map (fun d => mkEvent dry (whitelistCmd d)) := by
  induction cs generalizing s with
  | nil => simp [wlCatsGo, allDomains]
  | cons c cs ih =>
    simp [wlCatsGo, allDomains, wlDomainsGo_events, ih, List.map_append]

theorem rgGo_events {σ : Type} (ex : Cmd → σ → ExecResult × σ) (dry : Bool)
    (rs : List RegexRule) (s : σ) :
    (rgGo ex dry rs s).events =
      (rs.filter rgAttempted).map (fun r => mkEvent dry (regexCmd r.pattern)) := by
  induction rs generalizing s with
  | nil => simp [rgGo]
  | cons r rs ih =>
    cases he : r.enabled <;> cases hp : r.pattern == "" <;> cases dry <;>
      simp [rgGo, applyRegexEntry, rgAttempted, he, hp, mkEvent, ih, List.filter_cons]

theorem updateGravity_events {σ : Type} (ex : Cmd → σ → ExecResult × σ) (dry : Bool)
    (s : σ) : (updateGravity ex dry s).events = [mkEvent dry gravityCmd] := by
  cases dry <;> simp [updateGravity, mkEvent]

theorem blGo_len {σ : Type} (ex : Cmd → σ → ExecResult × σ) (dry : Bool)
    (bs : List BlocklistEntry) (s : σ) :
    (blGo ex dry bs s).outcomes.length = bs.length := by
  induction bs generalizing s with
  | nil => simp [blGo]
  | cons b bs ih => simp [blGo, ih]

theorem wlDomainsGo_len {σ : Type} (ex : Cmd → σ → ExecResult × σ) (dry : Bool)
    (ds : List String) (s : σ) :
    (wlDomainsGo ex dry ds s).outcomes.length = ds.length := by
  induction ds generalizing s with
  | nil => simp [wlDomainsGo]
  | cons d ds ih => simp [wlDomainsGo, ih]

theorem wlCatsGo_len {σ : Type} (ex : Cmd → σ → ExecResult × σ) (dry : Bool)
    (cs : List WhitelistCategory) (s : σ) :
    (wlCatsGo ex dry cs s).outcomes.length = (allDomains cs).length := by
  induction cs generalizing s with
  | nil => simp [wlCatsGo, allDomains]
  | cons c cs ih => simp [wlCatsGo, allDomains, wlDomainsGo_len, ih]

theorem rgGo_len {σ : Type} (ex : Cmd → σ → ExecResult × σ) (dry : Bool)
    (rs : List RegexRule) (s : σ) :
    (rgGo ex dry rs s).outcomes.length = rs.length := by
  induction rs generalizing s with
  | nil => simp [rgGo]
  | cons r rs ih => simp [rgGo, ih]

theorem blGo_st_dry {σ : Type} (ex : Cmd → σ → ExecResult × σ)
    (bs : List BlocklistEntry) (s : σ) : (blGo ex true bs s).st = s := by
  induction bs generalizing s with
  | nil => rfl
  | cons b bs ih =>
    cases he : b.enabled <;> cases hu : b.url == "" <;>
      simp [blGo, applyBlocklistEntry, he, hu, ih]

theorem wlDomainsGo_st_dry {σ : Type} (ex : Cmd → σ → ExecResult × σ)
    (ds : List String) (s : σ) : (wlDomainsGo ex true ds s).st = s := by
  induction ds generalizing s with
  | nil => rfl
  | cons d ds ih => simp [wlDomainsGo, applyWhitelistDomain, ih]

theorem wlCatsGo_st_dry {σ : Type} (ex : Cmd → σ → ExecResult × σ)
    (cs : List WhitelistCategory) (s : σ) : (wlCatsGo ex true cs s).st = s := by
  induction cs generalizing s with
  | nil => rfl
  | cons c cs ih => simp [wlCatsGo, wlDomainsGo_st_dry, ih]

theorem rgGo_st_dry {σ : Type} (ex : Cmd → σ → ExecResult × σ)
    (rs : List RegexRule) (s : σ) : (rgGo ex true rs s).st = s := by
  induction rs generalizing s with
  | nil => rfl
  | cons r rs ih =>
    cases he : r.enabled <;> cases hp : r.pattern == "" <;>
      simp [rgGo, applyRegexEntry, he, hp, ih]

/-- The calls a run of the pipeline addresses to the gateway, in stage and
declaration order: one per attempted blocklist entry, one per whitelist
domain, one per attempted regex rule, and the final gravity rebuild. -/
def prospectiveCmds (d : ProfileDoc) : List Cmd :=
  ((optItems d.blocklists).filter blAttempted).map (fun b => blocklistCmd b.url) ++
    (allDomains (optItems d.whitelist)).map whitelistCmd ++
    ((optItems d.regexPatterns).filter rgAttempted).map (fun r => regexCmd r.pattern) ++
    [gravityCmd]

theorem applyProfile_events_char {σ : Type} (ex : Cmd → σ → ExecResult × σ)
    (p0 d : ProfileDoc) (dry vOk : Bool) (s : σ) (h : (dry || vOk) = true) :
    (applyProfile ex (some p0) ⟨dry, .ok d, vOk⟩ s).events =
      (prospectiveCmds d).map (mkEvent dry) := by
  have hc : (!dry && !vOk) = false := by cases dry <;> cases vOk <;> simp_all
  simp [applyProfile, hc, applyBlocklists_eq, applyWhitelist_eq, applyRegexPatterns_eq,
    blGo_events, wlCatsGo_events, rgGo_events, updateGravity_events, prospectiveCmds,
    List.map_append, List.map_map, Function.comp_def]

/-- Claim C6: in dry-run mode no subprocess call reaches the gateway — the
event list is exactly one simulated report entry per prospective call
(attempted blocklist entries, whitelist domains, attempted regex rules and
the gravity rebuild, in order), the external state is untouched, and the run
returns True. -/
theorem c6_dry_run_purity : ∀ (σ : Type) (ex : Cmd → σ → ExecResult × σ)
    (p0 d : ProfileDoc) (vOk : Bool) (s : σ),
    (applyProfile ex (some p0) ⟨true, .ok d, vOk⟩ s).events =
      (prospectiveCmds d).map Event.simulatedCall ∧
    (applyProfile ex (some p0) ⟨true, .ok d, vOk⟩ s).st = s ∧
    (applyProfile ex (some p0) ⟨true, .ok d, vOk⟩ s).result = .returns true := by
  intro σ ex p0 d vOk s
  refine ⟨?_, ?_, ?_⟩
  · rw [applyProfile_events_char ex p0 d true vOk s (by simp)]
    simp [mkEvent]
  · simp [applyProfile, applyBlocklists_eq, applyWhitelist_eq, applyRegexPatterns_eq,
      updateGravity, blGo_st_dry, wlCatsGo_st_dry, rgGo_st_dry]
  · simp [applyProfile]

/-- Claim C7: in live mode, a failed connectivity verification makes the run
abort with a non-success result and an empty event list; dually, if any
subprocess call was executed in live mode, verification must have
succeeded. -/
theorem c7_verify_gate : ∀ (σ : Type) (ex : Cmd → σ → ExecResult × σ)
    (init : Option ProfileDoc) (w : World) (s : σ),
    w.dryRun = false →
    ((w.verifyOk = false →
        (applyProfile ex init w s).events = [] ∧
        (applyProfile ex init w s).result ≠ .returns true) ∧
      (∀ c : Cmd, Event.execCall c ∈ (applyProfile ex init w s).events →
        w.verifyOk = true)) := by
  intro σ ex init w s hd
  have hempty : w.verifyOk = false →
      (applyProfile ex init w s).events = [] ∧
      (applyProfile ex init w s).result ≠ .returns true := by
    intro hv
    cases init with
    | none => exact ⟨rfl, by simp [applyProfile]⟩
    | some p =>
      cases hl : w.loadResult with
      | ok d =>
        have hcond : (!w.dryRun && !w.verifyOk) = true := by simp [hd, hv]
        constructor <;> simp [applyProfile, hl, hcond]
      | fileNotFound => constructor <;> simp [applyProfile, hl]
      | yamlError => constructor <;> simp [applyProfile, hl]
  refine ⟨hempty, fun c hc => ?_⟩
  cases hvv : w.verifyOk with
  | true => rfl
  | false =>
    rw [(hempty hvv).1] at hc
    simp at hc

/-- Claim C8: whatever each subprocess call returns — in particular when any
entry k fails — the blocklist stage executes exactly one call per attempted
entry, in declaration order, and records one outcome per entry; a failure
never truncates the iteration. -/
theorem c8_failure_isolation : ∀ (σ : Type) (ex : Cmd → σ → ExecResult × σ)
    (bs : List BlocklistEntry) (s : σ),
    (applyBlocklists ex false (some bs) s).events =
      (bs.filter blAttempted).map (fun b => Event.execCall (blocklistCmd b.url)) ∧
    (applyBlocklists ex false (some bs) s).outcomes.length = bs.length := by
  intro σ ex bs s
  constructor
  · rw [applyBlocklists_eq]
    simp [blGo_events, optItems, mkEvent]
  · rw [applyBlocklists_eq]
    simp [blGo_len, optItems]

/-- The sets an instance holds: its adlists, whitelist domains and regex
patterns. Modelled from the spec: the live target state behind TargetGateway
is not part of this repository's sources; spec sections 4.1 and 8 fix that
re-adding a present item reports the already-marker and adding an absent one
records it and reports success. -/
structure TargetState where
  adlists : List String
  whitelistDomains : List String
  regexes : List String
deriving DecidableEq

/-- Modelled from the spec: the external pihole command behind the gateway,
dispatched on the argv shape the source builds (7 entries: blocklist add,
6 entries: whitelist or regex add by flag, 5 entries: gravity rebuild).
Adding a present item answers exit 0 with an already-marker in stdout;
adding an absent one records it and answers exit 0 without the marker;
the rebuild succeeds and changes nothing. -/
def piholeExec : Cmd → TargetState → ExecResult × TargetState
  | [_, _, _, _, _, _, url], s =>
    if url ∈ s.adlists then (.completed 0 "already exists in gravity" "", s)
    else (.completed 0 "list added" "", ⟨url :: s.adlists, s.whitelistDomains, s.regexes⟩)
  | [_, _, _, _, flag, x], s =>
    if flag == "-w" then
      if x ∈ s.whitelistDomains then (.completed 0 "already on the whitelist" "", s)
      else (.completed 0 "ok" "", ⟨s.adlists, x :: s.whitelistDomains, s.regexes⟩)
    else
      if x ∈ s.regexes then (.completed 0 "already on the regex list" "", s)
      else (.completed 0 "ok" "", ⟨s.adlists, s.whitelistDomains, x :: s.regexes⟩)
  | [_, _, _, _, _], s => (.completed 0 "gravity rebuilt" "", s)
  | _, s => (.completed 2 "" "unrecognized", s)

theorem piholeExec_bl (u : String) (s : TargetState) :
    piholeExec (blocklistCmd u) s =
      if u ∈ s.adlists then (.completed 0 "already exists in gravity" "", s)
      else (.completed 0 "list added" "", ⟨u :: s.adlists, s.whitelistDomains, s.regexes⟩) :=
  rfl

theorem piholeExec_wl (dmn : String) (s : TargetState) :
    piholeExec (whitelistCmd dmn) s =
      if dmn ∈ s.whitelistDomains then (.completed 0 "already on the whitelist" "", s)
      else (.completed 0 "ok" "", ⟨s.adlists, dmn :: s.whitelistDomains, s.regexes⟩) :=
  rfl

theorem piholeExec_rg (p : String) (s : TargetState) :
    piholeExec (regexCmd p) s =
      if p ∈ s.regexes then (.completed 0 "already on the regex list" "", s)
      else (.completed 0 "ok" "", ⟨s.adlists, s.whitelistDomains, p :: s.regexes⟩) :=
  rfl

theorem piholeExec_grav (s : TargetState) :
    piholeExec gravityCmd s = (.completed 0 "gravity rebuilt" "", s) :=
  rfl

theorem classify_bl_already :
    classifyOutcome "already exists" (.completed 0 "already exists in gravity" "") =
      .alreadyPresent := by decide

theorem classify_wl_already :
    classifyOutcome "already" (.completed 0 "already on the whitelist" "") =
      .alreadyPresent := by decide

theorem classify_rg_already :
    classifyOutcome "already" (.completed 0 "already on the regex list" "") =
      .alreadyPresent := by decide

/-- Componentwise inclusion of target states. -/
def stateLe (s t : TargetState) : Prop :=
  s.adlists ⊆ t.adlists ∧ s.whitelistDomains ⊆ t.whitelistDomains ∧
    s.regexes ⊆ t.regexes

theorem stateLe_refl (s : TargetState) : stateLe s s :=
  ⟨fun _ h => h, fun _ h => h, fun _ h => h⟩

theorem stateLe_trans {a b c : TargetState} (h1 : stateLe a b) (h2 : stateLe b c) :
    stateLe a c :=
  ⟨fun _ h => h2.1 (h1.1 h), fun _ h => h2.2.1 (h1.2.1 h), fun _ h => h2.2.2 (h1.2.2 h)⟩

theorem piholeExec_mono (c : Cmd) (s : TargetState) : stateLe s (piholeExec c s).2 := by
  unfold piholeExec
  repeat' split
  all_goals refine ⟨fun x hx => ?_, fun x hx => ?_, fun x hx => ?_⟩
  all_goals simp [List.mem_cons, hx]

theorem blEntry_skip_eq {σ : Type} (ex : Cmd → σ → ExecResult × σ) (dry : Bool)
    (b : BlocklistEntry) (s : σ) (hb : blAttempted b = false) :
    applyBlocklistEntry ex dry b s = (.skipped, [], s) := by
  cases h1 : b.enabled <;> cases h2 : b.url == "" <;>
    simp_all [applyBlocklistEntry, blAttempted]

theorem blEntry_live_eq {σ : Type} (ex : Cmd → σ → ExecResult × σ)
    (b : BlocklistEntry) (s : σ) (hb : blAttempted b = true) :
    applyBlocklistEntry ex false b s =
      (classifyOutcome "already exists" (ex (blocklistCmd b.url) s).1,
        [.execCall (blocklistCmd b.url)], (ex (blocklistCmd b.url) s).2) := by
  cases h1 : b.enabled <;> cases h2 : b.url == "" <;>
    simp_all [applyBlocklistEntry, blAttempted]

theorem rgEntry_skip_eq {σ : Type} (ex : Cmd → σ → ExecResult × σ) (dry : Bool)
    (r : RegexRule) (s : σ) (hr : rgAttempted r = false) :
    applyRegexEntry ex dry r s = (.skipped, [], s) := by
  cases h1 : r.enabled <;> cases h2 : r.pattern == "" <;>
    simp_all [applyRegexEntry, rgAttempted]

theorem rgEntry_live_eq {σ : Type} (ex : Cmd → σ → ExecResult × σ)
    (r : RegexRule) (s : σ) (hr : rgAttempted r = true) :
    applyRegexEntry ex false r s =
      (classifyOutcome "already" (ex (regexCmd r.pattern) s).1,
        [.execCall (regexCmd r.pattern)], (ex (regexCmd r.pattern) s).2) := by
  cases h1 : r.enabled <;> cases h2 : r.pattern == "" <;>
    simp_all [applyRegexEntry, rgAttempted]

theorem wlDomain_live_eq {σ : Type} (ex : Cmd → σ → ExecResult × σ)
    (d : String) (s : σ) :
    applyWhitelistDomain ex false d s =
      (classifyOutcome "already" (ex (whitelistCmd d) s).1,
        [.execCall (whitelistCmd d)], (ex (whitelistCmd d) s).2) := by
  simp [applyWhitelistDomain]

theorem blGo_mono (bs : List BlocklistEntry) (s : TargetState) :
    stateLe s (blGo piholeExec false bs s).st := by
  induction bs generalizing s with
  | nil => exact stateLe_refl s
  | cons b bs ih =>
    cases hb : blAttempted b with
    | false =>
      simp only [blGo, blEntry_skip_eq _ _ _ _ hb]
      exact ih s
    | true =>
      simp only [blGo, blEntry_live_eq _ _ _ hb]
      exact stateLe_trans (piholeExec_mono _ _) (ih _)

theorem wlDomainsGo_mono (ds : List String) (s : TargetState) :
    stateLe s (wlDomainsGo piholeExec false ds s).st := by
  induction ds generalizing s with
  | nil => exact stateLe_refl s
  | cons d ds ih =>
    simp only [wlDomainsGo, wlDomain_live_eq]
    exact stateLe_trans (piholeExec_mono _ _) (ih _)

theorem wlCatsGo_mono (cs : List WhitelistCategory) (s : TargetState) :
    stateLe s (wlCatsGo piholeExec false cs s).st := by
  induction cs generalizing s with
  | nil => exact stateLe_refl s
  | cons c cs ih =>
    simp only [wlCatsGo]
    exact stateLe_trans (wlDomainsGo_mono _ _) (ih _)

theorem rgGo_mono (rs : List RegexRule) (s : TargetState) :
    stateLe s (rgGo piholeExec false rs s).st := by
  induction rs generalizing s with
  | nil => exact stateLe_refl s
  | cons r rs ih =>
    cases hr : rgAttempted r with
    | false =>
      simp only [rgGo, rgEntry_skip_eq _ _ _ _ hr]
      exact ih s
    | true =>
      simp only [rgGo, rgEntry_live_eq _ _ _ hr]
      exact stateLe_trans (piholeExec_mono _ _) (ih _)

theorem mem_adlists_after_add (u : String) (s : TargetState) :
    u ∈ (piholeExec (blocklistCmd u) s).2.adlists := by
  rw [piholeExec_bl]
  by_cases h : u ∈ s.adlists <;> simp [h]

theorem mem_wl_after_add (d : String) (s : TargetState) :
    d ∈ (piholeExec (whitelistCmd d) s).2.whitelistDomains := by
  rw [piholeExec_wl]
  by_cases h : d ∈ s.whitelistDomains <;> simp [h]

theorem mem_rg_after_add (p : String) (s : TargetState) :
    p ∈ (piholeExec (regexCmd p) s).2.regexes := by
  rw [piholeExec_rg]
  by_cases h : p ∈ s.regexes <;> simp [h]

theorem blGo_covers (bs : List BlocklistEntry) (s : TargetState) :
    ∀ b ∈ bs, blAttempted b = true →
      b.url ∈ (blGo piholeExec false bs s).st.adlists := by
  induction bs generalizing s with
  | nil => intro b hb; simp at hb
  | cons b0 bs ih =>
    intro b hb hatt
    rcases List.mem_cons.mp hb with rfl | hmem
    · simp only [blGo, blEntry_live_eq _ _ _ hatt]
      exact (blGo_mono bs _).1 (mem_adlists_after_add b.url s)
    · cases hb0 : blAttempted b0 with
      | false =>
        simp only [blGo, blEntry_skip_eq _ _ _ _ hb0]
        exact ih s b hmem hatt
      | true =>
        simp only [blGo, blEntry_live_eq _ _ _ hb0]
        exact ih _ b hmem hatt

theorem wlDomainsGo_covers (ds : List String) (s : TargetState) :
    ∀ d ∈ ds, d ∈ (wlDomainsGo piholeExec false ds s).st.whitelistDomains := by
  induction ds generalizing s with
  | nil => intro d hd; simp at hd
  | cons d0 ds ih =>
    intro d hd
    rcases List.mem_cons.mp hd with rfl | hmem
    · simp only [wlDomainsGo, wlDomain_live_eq]
      exact (wlDomainsGo_mono ds _).2.1 (mem_wl_after_add d s)
    · simp only [wlDomainsGo, wlDomain_live_eq]
      exact ih _ d hmem

theorem wlCatsGo_covers (cs : List WhitelistCategory) (s : TargetState) :
    ∀ d ∈ allDomains cs,
      d ∈ (wlCatsGo piholeExec false cs s).st.whitelistDomains := by
  induction cs generalizing s with
  | nil => intro d hd; simp [allDomains] at hd
  | cons c cs ih =>
    intro d hd
    rcases List.mem_append.mp (by simpa [allDomains] using hd) with hin | hin
    · simp only [wlCatsGo]
      exact (wlCatsGo_mono cs _).2.1 (wlDomainsGo_covers c.domains s d hin)
    · simp only [wlCatsGo]
      exact ih _ d hin

theorem rgGo_covers (rs : List RegexRule) (s : TargetState) :
    ∀ r ∈ rs, rgAttempted r = true →
      r.pattern ∈ (rgGo piholeExec false rs s).st.regexes := by
  induction rs generalizing s with
  | nil => intro r hr; simp at hr
  | cons r0 rs ih =>
    intro r hr hatt
    rcases List.mem_cons.mp hr with rfl | hmem
    · simp only [rgGo, rgEntry_live_eq _ _ _ hatt]
      exact (rgGo_mono rs _).2.2 (mem_rg_after_add r.pattern s)
    · cases hr0 : rgAttempted r0 with
      | false =>
        simp only [rgGo, rgEntry_skip_eq _ _ _ _ hr0]
        exact ih s r hmem hatt
      | true =>
        simp only [rgGo, rgEntry_live_eq _ _ _ hr0]
        exact ih _ r hmem hatt

theorem blGo_allPresent (bs : List BlocklistEntry) (s : TargetState)
    (h : ∀ b ∈ bs, blAttempted b = true → b.url ∈ s.adlists) :
    (blGo piholeExec false bs s).outcomes =
      bs.map (fun b => if blAttempted b then Outcome.alreadyPresent else Outcome.skipped) ∧
    (blGo piholeExec false bs s).st = s := by
  induction bs generalizing s with
  | nil => exact ⟨rfl, rfl⟩
  | cons b bs ih =>
    have htail : ∀ b' ∈ bs, blAttempted b' = true → b'.url ∈ s.adlists :=
      fun b' hb' ha' => h b' (List.mem_cons_of_mem _ hb') ha'
    cases hb : blAttempted b with
    | false =>
      have := ih s htail
      simp only [blGo, blEntry_skip_eq _ _ _ _ hb]
      simp [this.1, this.2, hb]
    | true =>
      have hin : b.url ∈ s.adlists := h b (List.mem_cons_self _ _) hb
      have hx : piholeExec (blocklistCmd b.url) s =
          (.completed 0 "already exists in gravity" "", s) := by
        rw [piholeExec_bl]
        simp [hin]
      have := ih s htail
      simp only [blGo, blEntry_live_eq _ _ _ hb, hx]
      simp [this.1, this.2, hb, classify_bl_already]

theorem wlDomainsGo_allPresent (ds : List String) (s : TargetState)
    (h : ∀ d ∈ ds, d ∈ s.whitelistDomains) :
    (wlDomainsGo piholeExec false ds s).outcomes =
      ds.map (fun _ => Outcome.alreadyPresent) ∧
    (wlDomainsGo piholeExec false ds s).st = s := by
  induction ds generalizing s with
  | nil => exact ⟨rfl, rfl⟩
  | cons d ds ih =>
    have htail : ∀ d' ∈ ds, d' ∈ s.whitelistDomains :=
      fun d' hd' => h d' (List.mem_cons_of_mem _ hd')
    have hin : d ∈ s.whitelistDomains := h d (List.mem_cons_self _ _)
    have hx : piholeExec (whitelistCmd d) s =
        (.completed 0 "already on the whitelist" "", s) := by
      rw [piholeExec_wl]
      simp [hin]
    have := ih s htail
    simp only [wlDomainsGo, wlDomain_live_eq, hx]
    simp [this.1, this.2, classify_wl_already]

theorem wlCatsGo_allPresent (cs : List WhitelistCategory) (s : TargetState)
    (h : ∀ d ∈ allDomains cs, d ∈ s.whitelistDomains) :
    (wlCatsGo piholeExec false cs s).outcomes =
      (allDomains cs).map (fun _ => Outcome.alreadyPresent) ∧
    (wlCatsGo piholeExec false cs s).st = s := by
  induction cs generalizing s with
  | nil => exact ⟨rfl, rfl⟩
  | cons c cs ih =>
    have hhead : ∀ d ∈ c.domains, d ∈ s.whitelistDomains :=
      fun d hd => h d (by simp [allDomains, hd])
    have htail : ∀ d ∈ allDomains cs, d ∈ s.whitelistDomains :=
      fun d hd => h d (by simp [allDomains, hd])
    have h1 := wlDomainsGo_allPresent c.domains s hhead
    have h2 := ih s htail
    simp only [wlCatsGo, h1.2]
    simp [allDomains, h1.1, h2.1, h2.2, h1.2]

theorem rgGo_allPresent (rs : List RegexRule) (s : TargetState)
    (h : ∀ r ∈ rs, rgAttempted r = true → r.pattern ∈ s.regexes) :
    (rgGo piholeExec false rs s).outcomes =
      rs.map (fun r => if rgAttempted r then Outcome.alreadyPresent else Outcome.skipped) ∧
    (rgGo piholeExec false rs s).st = s := by
  induction rs generalizing s with
  | nil => exact ⟨rfl, rfl⟩
  | cons r rs ih =>
    have htail : ∀ r' ∈ rs, rgAttempted r' = true → r'.pattern ∈ s.regexes :=
      fun r' hr' ha' => h r' (List.mem_cons_of_mem _ hr') ha'
    cases hr : rgAttempted r with
    | false =>
      have := ih s htail
      simp only [rgGo, rgEntry_skip_eq _ _ _ _ hr]
      simp [this.1, this.2, hr]
    | true =>
      have hin : r.pattern ∈ s.regexes := h r (List.mem_cons_self _ _) hr
      have hx : piholeExec (regexCmd r.pattern) s =
          (.completed 0 "already on the regex list" "", s) := by
        rw [piholeExec_rg]
        simp [hin]
      have := ih s htail
      simp only [rgGo, rgEntry_live_eq _ _ _ hr, hx]
      simp [this.1, this.2, hr, classify_rg_already]

/-- Relation between a first-run outcome and the same position's second-run
outcome: whatever was Added must now be AlreadyPresent. -/
def OutRel : Outcome → Outcome → Prop := fun o o' =>
  o = .added → o' = .alreadyPresent

theorem outRel_to_already (o : Outcome) : OutRel o .alreadyPresent :=
  fun _ => rfl

theorem outRel_skipped (o : Outcome) : OutRel .skipped o :=
  fun h => nomatch h

theorem blGo_forallTwo {σ : Type} (ex : Cmd → σ → ExecResult × σ)
    (bs : List BlocklistEntry) (s : σ) :
    List.Forall₂ OutRel (blGo ex false bs s).outcomes
      (bs.map (fun b => if blAttempted b then Outcome.alreadyPresent else Outcome.skipped)) := by
  induction bs generalizing s with
  | nil => exact .nil
  | cons b bs ih =>
    cases hb : blAttempted b with
    | false =>
      simp only [blGo, blEntry_skip_eq _ _ _ _ hb, List.map_cons, hb, if_neg Bool.false_ne_true]
      exact .cons (outRel_skipped _) (ih s)
    | true =>
      simp only [blGo, blEntry_live_eq _ _ _ hb, List.map_cons, hb, if_pos rfl]
      exact .cons (outRel_to_already _) (ih _)

theorem rgGo_forallTwo {σ : Type} (ex : Cmd → σ → ExecResult × σ)
    (rs : List RegexRule) (s : σ) :
    List.Forall₂ OutRel (rgGo ex false rs s).outcomes
      (rs.map (fun r => if rgAttempted r then Outcome.alreadyPresent else Outcome.skipped)) := by
  induction rs generalizing s with
  | nil => exact .nil
  | cons r rs ih =>
    cases hr : rgAttempted r with
    | false =>
      simp only [rgGo, rgEntry_skip_eq _ _ _ _ hr, List.map_cons, hr, if_neg Bool.false_ne_true]
      exact .cons (outRel_skipped _) (ih s)
    | true =>
      simp only [rgGo, rgEntry_live_eq _ _ _ hr, List.map_cons, hr, if_pos rfl]
      exact .cons (outRel_to_already _) (ih _)

theorem forallTwo_right_const (xs ys : List Outcome) (hlen : xs.length = ys.length)
    (hy : ∀ y ∈ ys, y = Outcome.alreadyPresent) : List.Forall₂ OutRel xs ys := by
  induction xs generalizing ys with
  | nil =>
    cases ys with
    | nil => exact .nil
    | cons y ys => simp at hlen
  | cons x xs ih =>
    cases ys with
    | nil => simp at hlen
    | cons y ys =>
      have hyh : y = Outcome.alreadyPresent := hy y (List.mem_cons_self _ _)
      subst hyh
      exact .cons (outRel_to_already x)
        (ih ys (by simpa using hlen) (fun z hz => hy z (List.mem_cons_of_mem _ hz)))

theorem forallTwo_append {R : Outcome → Outcome → Prop} {a b c d : List Outcome}
    (h1 : List.Forall₂ R a b) (h2 : List.Forall₂ R c d) :
    List.Forall₂ R (a ++ c) (b ++ d) := by
  induction h1 with
  | nil => simpa using h2
  | cons hr hrest ih => exact .cons hr ih

theorem forallTwo_getElem {R : Outcome → Outcome → Prop} {xs ys : List Outcome}
    (h : List.Forall₂ R xs ys) :
    ∀ (k : Nat) (x : Outcome), xs.get? k = some x →
      ∃ y, ys.get? k = some y ∧ R x y := by
  induction h with
  | nil => intro k x hx; simp at hx
  | cons hr hrest ih =>
    intro k x hx
    cases k with
    | zero =>
      simp only [List.get?_cons_zero, Option.some.injEq] at hx
      subst hx
      exact ⟨_, rfl, hr⟩
    | succ k =>
      simp only [List.get?_cons_succ] at hx
      simpa using ih k x hx

/-- A live-mode world in which the profile loads as `d` and the target is
reachable. -/
def liveWorld (d : ProfileDoc) : World := ⟨false, .ok d, true⟩

/-- One live reconciliation run of profile `d` against target state `s`. -/
def runOnTarget (d : ProfileDoc) (s : TargetState) : RunOut TargetState :=
  applyProfile piholeExec (some d) (liveWorld d) s

/-- The blocklist stage of a live run on the target model. -/
def blRun (d : ProfileDoc) (s : TargetState) : ItemsOut TargetState :=
  blGo piholeExec false (optItems d.blocklists) s

/-- The whitelist stage of a live run on the target model. -/
def wlRun (d : ProfileDoc) (s : TargetState) : ItemsOut TargetState :=
  wlCatsGo piholeExec false (optItems d.whitelist) (blRun d s).st

/-- The regex stage of a live run on the target model. -/
def rgRun (d : ProfileDoc) (s : TargetState) : ItemsOut TargetState :=
  rgGo piholeExec false (optItems d.regexPatterns) (wlRun d s).st

theorem runOnTarget_outcomes (d : ProfileDoc) (s : TargetState) :
    (runOnTarget d s).outcomes =
      (blRun d s).outcomes ++ (wlRun d s).outcomes ++ (rgRun d s).outcomes := by
  simp [runOnTarget, applyProfile, liveWorld, applyBlocklists_eq, applyWhitelist_eq,
    applyRegexPatterns_eq, blRun, wlRun, rgRun]

theorem runOnTarget_st (d : ProfileDoc) (s : TargetState) :
    (runOnTarget d s).st = (rgRun d s).st := by
  simp [runOnTarget, applyProfile, liveWorld, applyBlocklists_eq, applyWhitelist_eq,
    applyRegexPatterns_eq, updateGravity, piholeExec_grav, blRun, wlRun, rgRun]

theorem run_covers (d : ProfileDoc) (s : TargetState) :
    (∀ b ∈ optItems d.blocklists, blAttempted b = true →
      b.url ∈ (runOnTarget d s).st.adlists) ∧
    (∀ dm ∈ allDomains (optItems d.whitelist),
      dm ∈ (runOnTarget d s).st.whitelistDomains) ∧
    (∀ r ∈ optItems d.regexPatterns, rgAttempted r = true →
      r.pattern ∈ (runOnTarget d s).st.regexes) := by
  refine ⟨fun b hb ha => ?_, fun dm hdm => ?_, fun r hr ha => ?_⟩
  · rw [runOnTarget_st]
    exact (rgGo_mono _ _).1 ((wlCatsGo_mono _ _).1 (blGo_covers _ s b hb ha))
  · rw [runOnTarget_st]
    exact (rgGo_mono _ _).2.1 (wlCatsGo_covers _ _ dm hdm)
  · rw [runOnTarget_st]
    exact rgGo_covers _ _ r hr ha

theorem secondRun_outcomes (d : ProfileDoc) (s : TargetState) :
    (runOnTarget d (runOnTarget d s).st).outcomes =
      (optItems d.blocklists).map
          (fun b => if blAttempted b then Outcome.alreadyPresent else Outcome.skipped) ++
        (allDomains (optItems d.whitelist)).map (fun _ => Outcome.alreadyPresent) ++
        (optItems d.regexPatterns).map
          (fun r => if rgAttempted r then Outcome.alreadyPresent else Outcome.skipped) := by
  obtain ⟨hc1, hc2, hc3⟩ := run_covers d s
  have hbl := blGo_allPresent (optItems d.blocklists) (runOnTarget d s).st hc1
  have hwl := wlCatsGo_allPresent (optItems d.whitelist) (runOnTarget d s).st hc2
  have hrg := rgGo_allPresent (optItems d.regexPatterns) (runOnTarget d s).st hc3
  rw [runOnTarget_outcomes]
  simp only [blRun, wlRun, rgRun, hbl.1, hbl.2, hwl.1, hwl.2, hrg.1]

/-- Claim C5: running the same profile a second time against the target state
the first live run left behind yields no Added outcome at all, and every
position that was Added on the first run is AlreadyPresent on the second. -/
theorem c5_idempotent_second_run : ∀ (d : ProfileDoc) (s0 : TargetState),
    (∀ o ∈ (runOnTarget d (runOnTarget d s0).st).outcomes, o ≠ Outcome.added) ∧
    (∀ (k : Nat) (o : Outcome),
      (runOnTarget d s0).outcomes.get? k = some o → o = Outcome.added →
      (runOnTarget d (runOnTarget d s0).st).outcomes.get? k =
        some Outcome.alreadyPresent) := by
  intro d s0
  have hsec := secondRun_outcomes d s0
  constructor
  · intro o ho
    rw [hsec] at ho
    simp only [List.mem_append, List.mem_map] at ho
    rcases ho with (⟨b, hb, rfl⟩ | ⟨dm, hdm, rfl⟩) | ⟨r, hr, rfl⟩
    · cases hba : blAttempted b <;> simp [hba]
    · simp
    · cases hra : rgAttempted r <;> simp [hra]
  · intro k o hk hadd
    have hfa : List.Forall₂ OutRel (runOnTarget d s0).outcomes
        (runOnTarget d (runOnTarget d s0).st).outcomes := by
      rw [runOnTarget_outcomes, hsec]
      refine forallTwo_append (forallTwo_append ?_ ?_) ?_
      · exact blGo_forallTwo piholeExec _ s0
      · refine forallTwo_right_const _ _ ?_ ?_
        · simp [wlRun, wlCatsGo_len]
        · intro y hy
          rcases List.mem_map.mp hy with ⟨_, _, rfl⟩
          rfl
      · exact rgGo_forallTwo piholeExec _ _
    obtain ⟨y, hy, hr⟩ := forallTwo_getElem hfa k o hk
    rw [hr hadd] at hy
    exact hy

/-- An oracle whose every call completes with exit 0 and empty output. -/
def unitExec : Cmd → Unit → ExecResult × Unit := fun _ _ =>
  (.completed 0 "" "", ())

theorem c7_witness :
    (applyProfile unitExec none ⟨false, LoadResult.fileNotFound, false⟩ ()).events = [] ∧
    (applyProfile unitExec none ⟨false, LoadResult.fileNotFound, false⟩ ()).result ≠
      RunResult.returns true :=
  (c7_verify_gate Unit unitExec none ⟨false, .fileNotFound, false⟩ () rfl).1 rfl

/-- A small three-stage profile used to instantiate the idempotence law. -/
def c5Doc : ProfileDoc :=
  ⟨"demo", some [⟨"ads", "http://x/list", true⟩],
    some [⟨"banking", "trusted", ["bank.example"]⟩],
    some [⟨"trackers", "^track", true⟩]⟩

/-- An initially empty target. -/
def c5Start : TargetState := ⟨[], [], []⟩

theorem c5_witness :
    (runOnTarget c5Doc c5Start).outcomes.get? 0 = some Outcome.added ∧
    (runOnTarget c5Doc (runOnTarget c5Doc c5Start).st).outcomes.get? 0 =
      some Outcome.alreadyPresent :=
  ⟨by decide, (c5_idempotent_second_run c5Doc c5Start).2 0 Outcome.added (by decide) rfl⟩
